import Mathlib

/-!
Verification of the multi-region deployment controller
(`src/controller/deploy-with-rollback.py`) against its specification.

The controller is embedded shallowly: every external effect (HTTP probe,
container lifecycle command, JSON body) is replaced by an oracle supplied as
input, and the control flow of each Python method is reproduced as a total
Lean function over those oracles.  Time delays (`time.sleep`) are recorded as
events in a trace so that claims about backoff spacing can be stated.
-/

/-- Outcome of one HTTP probe attempt against a region's endpoint.
`err` covers every exception path (connection failure, timeout, unparsable
JSON, missing status field raising `KeyError`); `response code bodyStatus`
is a parsed reply carrying its HTTP status code and the body's `status`
field (`none` when the field is absent, which the Python code turns into a
caught `KeyError`, i.e. a failed attempt). -/
inductive ProbeOutcome
  | err
  | response (statusCode : Nat) (bodyStatus : Option String)
  deriving DecidableEq, Repr

/-- Condition under which one probe attempt counts as a success in
`Deployer.health_check`: the transport call succeeded, the status code is
200, and the body's status field equals "healthy" (line 67 of the source). -/
def attemptSuccess : ProbeOutcome → Bool
  | ProbeOutcome.err => false
  | ProbeOutcome.response code bodyStatus => code == 200 && bodyStatus == some "healthy"

/-- Observable timing event of a probing loop: one probe attempt, or one
`time.sleep` of the given number of seconds. -/
inductive HCEvent
  | probe
  | sleep (seconds : Nat)
  deriving DecidableEq, Repr

/-- Number of probe attempts recorded in a trace. -/
def probeCount (t : List HCEvent) : Nat :=
  t.countP (fun e => e == HCEvent.probe)

/-- Result of the post-start version read-back in `Deployer.deploy_region`
(lines 117-128): either an observed `version` field of the root endpoint,
or any exception (connection failure, timeout, malformed body). -/
inductive VerifyResult
  | ok (version : String)
  | err
  deriving DecidableEq, Repr

/-- External outcomes consumed while deploying one region: whether the
`docker compose up` command (run with `check=True`) succeeds, and the
outcome of the version read-back. -/
structure RegionDeployEnv where
  startOk : Bool
  verify : VerifyResult
  deriving DecidableEq, Repr

/-- Outcome of the reference-region query in
`Deployer._detect_current_version` (lines 48-56): any exception, or a
parsed JSON object modelled as an association list of string fields. -/
inductive HttpResult
  | err
  | ok (body : List (String × String))
  deriving DecidableEq, Repr

/-- The session state of the `Deployer` class (lines 28-32): target version,
failure-injection rate (kept as the uninterpreted text placed in the
`FAILURE_RATE` environment variable; the core never reads it back), and the
prior version detected once at construction time. -/
structure Deployer where
  version : String
  failure_rate : String
  current_version : String
  deriving DecidableEq, Repr

/-- The oracles standing for the external world in one run: the result of
the startup version detection, per-region-index lifecycle/verification
outcomes, the per-region, per-attempt health-probe outcomes, and the
per-check outcomes of the canary probes (each canary check makes a single
attempt). -/
structure World where
  detectResult : HttpResult
  deployEnv : Nat → RegionDeployEnv
  healthOracle : Nat → Nat → ProbeOutcome
  canaryOracle : Nat → ProbeOutcome

/-- Embedding of `Deployer._detect_current_version` (lines 46-56): on any
exception return "v1"; otherwise `data.get('version', 'v1')`. -/
def Deployer.detect_current_version : HttpResult → String
  | HttpResult.err => "v1"
  | HttpResult.ok body => (body.lookup "version").getD "v1"

/-- Embedding of `Deployer.health_check` (lines 58-78).  The oracle gives
the outcome of each attempt in order.  Returns the boolean result together
with the trace of attempts and sleeps exactly as the loop produces them: a
successful attempt returns immediately, a failed attempt is always followed
by `time.sleep(2)` — including the final one — before the loop re-tests. -/
def Deployer.health_check (oracle : Nat → ProbeOutcome) : Nat → Bool × List HCEvent
  | 0 => (false, [])
  | retries + 1 =>
    if attemptSuccess (oracle 0) then
      (true, [HCEvent.probe])
    else
      let rest := Deployer.health_check (fun n => oracle (n + 1)) retries
      (rest.1, HCEvent.probe :: HCEvent.sleep 2 :: rest.2)

/-- Embedding of `Deployer.deploy_region` (lines 80-135) restricted to its
decision logic: a failing `docker compose up` raises
`subprocess.CalledProcessError`, caught at line 131, giving `False`; an
observed version different from the target gives `False` (line 125); an
exception during the read-back is swallowed (line 127) and the function
falls through to `return True` (line 130). -/
def Deployer.deploy_region (d : Deployer) (env : RegionDeployEnv) : Bool :=
  if env.startOk then
    match env.verify with
    | VerifyResult.ok actual => actual == d.version
    | VerifyResult.err => true
  else
    false

/-- One rollback lifecycle command as issued by `Deployer.rollback_all`
(lines 145-156): `docker compose up` for `region` with environment
`VERSION = version` and `FAILURE_RATE = failure_rate`. -/
structure RollbackCmd where
  region : String
  version : String
  failure_rate : String
  deriving DecidableEq, Repr

/-- Embedding of `Deployer.rollback_all` (lines 137-158): one command per
region of the succeeded list, in order, with `VERSION` set to the detected
prior version and `FAILURE_RATE` set to the literal "0.0".  The
`outcomes` oracle stands for the exit status of each command; since the
Python call uses `capture_output=True` and no `check=True`, a failing
command raises nothing and the loop continues — the issued command list
does not depend on `outcomes` at all. -/
def Deployer.rollback_all (d : Deployer) (deployed : List String)
    (_outcomes : Nat → Bool) : List RollbackCmd :=
  deployed.map (fun r => ⟨r, d.current_version, "0.0"⟩)

/-- Models the inline canary loop of `Deployer.deploy` (lines 185-190) as a
function of the per-check probe oracle: five iterations of
`time.sleep(2)` followed by `health_check(region, retries=1)`; the first
failing check aborts the loop with `false`. -/
def canaryGo (oracle : Nat → ProbeOutcome) : Nat → Bool × List HCEvent
  | 0 => (true, [])
  | remaining + 1 =>
    let hc := Deployer.health_check (fun _ => oracle 0) 1
    if hc.1 then
      let rest := canaryGo (fun n => oracle (n + 1)) remaining
      (rest.1, (HCEvent.sleep 2 :: hc.2) ++ rest.2)
    else
      (false, HCEvent.sleep 2 :: hc.2)

/-- The canary monitoring phase: exactly 5 single-attempt checks. -/
def canary (oracle : Nat → ProbeOutcome) : Bool × List HCEvent :=
  canaryGo oracle 5

/-- Result of one run of `Deployer.deploy`: the returned boolean, the final
`deployed_regions` list, the succeeded list passed to each `rollback_all`
invocation (in invocation order), and a record of each canary-monitoring
phase that ran (region index, result, trace). -/
structure DeployResult where
  success : Bool
  deployed : List String
  rollbackLists : List (List String)
  canaryRuns : List (Nat × Bool × List HCEvent)
  deriving DecidableEq, Repr

/-- The loop body of `Deployer.deploy` (lines 165-196), recursing over the
remaining regions with `i` the enumeration index, `deployed` the
accumulated `deployed_regions` list and `cruns` the canary record so far:
deploy failure rolls back before the append (line 167-170); the region is
appended at line 172, before its health check; health-check failure rolls
back with the region already in the list (lines 176-179); for `i == 0` the
canary phase runs and any failure rolls back (lines 182-190). -/
def deployGo (d : Deployer) (w : World) :
    List String → Nat → List String → List (Nat × Bool × List HCEvent) → DeployResult
  | [], _, deployed, cruns => ⟨true, deployed, [], cruns⟩
  | r :: rest, i, deployed, cruns =>
    if Deployer.deploy_region d (w.deployEnv i) then
      let deployed2 := deployed ++ [r]
      if (Deployer.health_check (w.healthOracle i) 3).1 then
        if i == 0 then
          let c := canary w.canaryOracle
          if c.1 then
            deployGo d w rest (i + 1) deployed2 (cruns ++ [(i, c.1, c.2)])
          else
            ⟨false, deployed2, [deployed2], cruns ++ [(i, c.1, c.2)]⟩
        else
          deployGo d w rest (i + 1) deployed2 cruns
      else
        ⟨false, deployed2, [deployed2], cruns⟩
    else
      ⟨false, deployed, [deployed], cruns⟩

/-- Embedding of `Deployer.deploy` (lines 160-196).  The source iterates
the fixed list `Deployer.regions`; the region list is a parameter here so
that properties quantified over arbitrary region lists can be stated. -/
def Deployer.deploy (d : Deployer) (w : World) (rs : List String) : DeployResult :=
  deployGo d w rs 0 [] []

/-- The fixed region list of the source (lines 33-38). -/
def Deployer.regions : List String :=
  ["region-us-west", "region-us-east", "region-eu-west", "region-ap-south"]

/-- Embedding of `main` (lines 199-213): fewer than two argv entries exits
with code 1; otherwise a `Deployer` is built from argv and the startup
version detection, and the process exits 0 when `deploy()` returned True,
1 otherwise. -/
def Deployer.main (argv : List String) (w : World) : Nat :=
  match argv with
  | _ :: version :: rest =>
    let d : Deployer := ⟨version, rest.headD "0.0", Deployer.detect_current_version w.detectResult⟩
    if (Deployer.deploy d w Deployer.regions).success then 0 else 1
  | _ => 1

/-- All three gates of one region's forward step succeed: deploy (with
version verification), the 3-retry health check, and — for the first
region — the canary phase. -/
def stepOK (d : Deployer) (w : World) (i : Nat) : Bool :=
  Deployer.deploy_region d (w.deployEnv i)
    && (Deployer.health_check (w.healthOracle i) 3).1
    && (if i == 0 then (canary w.canaryOracle).1 else true)

/-! Concrete fixtures used to evaluate the development on explicit inputs. -/

/-- A healthy probe reply: status 200, body status "healthy". -/
def goodAttempt : ProbeOutcome := ProbeOutcome.response 200 (some "healthy")

/-- An unhealthy probe reply: status 503, body status "unhealthy". -/
def badAttempt : ProbeOutcome := ProbeOutcome.response 503 (some "unhealthy")

/-- A probe whose every attempt reports unhealthy. -/
def alwaysBad : Nat → ProbeOutcome := fun _ => badAttempt

/-- A probe that fails its first attempt and succeeds on the second. -/
def secondOK : Nat → ProbeOutcome := fun n => if n == 1 then goodAttempt else badAttempt

/-- A canary oracle whose every check passes. -/
def goodCanaryOracle : Nat → ProbeOutcome := fun _ => goodAttempt

/-- A session deploying target version "v2" over detected prior "v1". -/
def d2 : Deployer := ⟨"v2", "0.0", "v1"⟩

/-- A world in which every external operation succeeds and every probe is
healthy; the reference region reports version "v1". -/
def goodW : World :=
  ⟨HttpResult.ok [("status", "running"), ("version", "v1")],
   fun _ => ⟨true, VerifyResult.ok "v2"⟩,
   fun _ _ => goodAttempt,
   fun _ => goodAttempt⟩

/-- A world in which everything succeeds except region index 0's health
check, whose every attempt reports unhealthy. -/
def cexW1 : World :=
  ⟨HttpResult.err,
   fun _ => ⟨true, VerifyResult.ok "v2"⟩,
   fun i _ => if i == 0 then badAttempt else goodAttempt,
   fun _ => goodAttempt⟩

/-- A world in which everything succeeds except region index 1's health
check, whose every attempt reports unhealthy. -/
def cexW2 : World :=
  ⟨HttpResult.err,
   fun _ => ⟨true, VerifyResult.ok "v2"⟩,
   fun i _ => if i == 1 then badAttempt else goodAttempt,
   fun _ => goodAttempt⟩

/-- A world in which everything succeeds except that region index 2's
version read-back observes "v1" instead of the target "v2". -/
def w5 : World :=
  ⟨HttpResult.err,
   fun i => if i == 2 then ⟨true, VerifyResult.ok "v1"⟩ else ⟨true, VerifyResult.ok "v2"⟩,
   fun _ _ => goodAttempt,
   fun _ => goodAttempt⟩

/-- A world in which everything succeeds except canary check index 2,
which reports unhealthy. -/
def cw8 : World :=
  ⟨HttpResult.err,
   fun _ => ⟨true, VerifyResult.ok "v2"⟩,
   fun _ _ => goodAttempt,
   fun c => if c == 2 then badAttempt else goodAttempt⟩

/-! Helper lemmas about the probing loops. -/

/-- When every attempt up to the bound fails, the health check runs all of
them, sleeping after each one, and returns false. -/
lemma health_check_all_fail (n : Nat) (oracle : Nat → ProbeOutcome)
    (h : ∀ k, k < n → attemptSuccess (oracle k) = false) :
    Deployer.health_check oracle n
      = (false, (List.replicate n [HCEvent.probe, HCEvent.sleep 2]).flatten) := by
  induction n generalizing oracle with
  | zero => simp [Deployer.health_check]
  | succ m ih =>
    have h0 : attemptSuccess (oracle 0) = false := h 0 (Nat.succ_pos m)
    have hrec := ih (fun k => oracle (k + 1)) (fun k hk => h (k + 1) (by omega))
    simp [Deployer.health_check, h0, hrec, List.replicate_succ]

/-- When the attempt at index `s` is the first success, the health check
stops there: `s` failed attempts each followed by a sleep, then the
successful probe, and nothing after it. -/
lemma health_check_first_success (s : Nat) (oracle : Nat → ProbeOutcome) (n : Nat)
    (hs : s < n)
    (hfail : ∀ k, k < s → attemptSuccess (oracle k) = false)
    (hsucc : attemptSuccess (oracle s) = true) :
    Deployer.health_check oracle n
      = (true, (List.replicate s [HCEvent.probe, HCEvent.sleep 2]).flatten ++ [HCEvent.probe]) := by
  induction s generalizing oracle n with
  | zero =>
    cases n with
    | zero => omega
    | succ m => simp [Deployer.health_check, hsucc]
  | succ t ih =>
    cases n with
    | zero => omega
    | succ m =>
      have h0 : attemptSuccess (oracle 0) = false := hfail 0 (Nat.succ_pos t)
      have hrec := ih (fun k => oracle (k + 1)) m (by omega)
        (fun k hk => hfail (k + 1) (by omega)) hsucc
      simp [Deployer.health_check, h0, hrec, List.replicate_succ]

/-- A single-attempt health check reduces to the outcome of its one probe. -/
lemma health_check_one (oracle : Nat → ProbeOutcome) :
    Deployer.health_check oracle 1
      = (if attemptSuccess (oracle 0) then (true, [HCEvent.probe])
         else (false, [HCEvent.probe, HCEvent.sleep 2])) := by
  cases h : attemptSuccess (oracle 0) with
  | true => simp [Deployer.health_check, h]
  | false => simp [Deployer.health_check, h]

/-- When every canary check passes, the loop runs all of them: each check
is a sleep followed by its single successful probe. -/
lemma canaryGo_all_pass (k : Nat) (oracle : Nat → ProbeOutcome)
    (h : ∀ c, c < k → attemptSuccess (oracle c) = true) :
    canaryGo oracle k
      = (true, (List.replicate k [HCEvent.sleep 2, HCEvent.probe]).flatten) := by
  induction k generalizing oracle with
  | zero => simp [canaryGo]
  | succ m ih =>
    have h0 : attemptSuccess (oracle 0) = true := h 0 (Nat.succ_pos m)
    have hrec := ih (fun c => oracle (c + 1)) (fun c hc => h (c + 1) (by omega))
    simp [canaryGo, health_check_one, h0, hrec, List.replicate_succ]

/-- When the canary check at index `c` is the first failing one, the loop
stops there with `false`; the failing single-attempt health check itself
ends in its internal sleep. -/
lemma canaryGo_first_fail (c : Nat) (k : Nat) (oracle : Nat → ProbeOutcome)
    (hc : c < k)
    (hpass : ∀ j, j < c → attemptSuccess (oracle j) = true)
    (hfail : attemptSuccess (oracle c) = false) :
    canaryGo oracle k
      = (false, (List.replicate c [HCEvent.sleep 2, HCEvent.probe]).flatten
          ++ [HCEvent.sleep 2, HCEvent.probe, HCEvent.sleep 2]) := by
  induction c generalizing oracle k with
  | zero =>
    cases k with
    | zero => omega
    | succ m => simp [canaryGo, health_check_one, hfail]
  | succ t ih =>
    cases k with
    | zero => omega
    | succ m =>
      have h0 : attemptSuccess (oracle 0) = true := hpass 0 (Nat.succ_pos t)
      have hrec := ih m (fun j => oracle (j + 1)) (by omega)
        (fun j hj => hpass (j + 1) (by omega)) hfail
      simp [canaryGo, health_check_one, h0, hrec, List.replicate_succ]

/-! Helper lemmas about the main deployment loop. -/

lemma stepOK_deploy {d : Deployer} {w : World} {i : Nat} (h : stepOK d w i = true) :
    Deployer.deploy_region d (w.deployEnv i) = true := by
  simp [stepOK, Bool.and_eq_true] at h
  exact h.1.1

lemma stepOK_health {d : Deployer} {w : World} {i : Nat} (h : stepOK d w i = true) :
    (Deployer.health_check (w.healthOracle i) 3).1 = true := by
  simp [stepOK, Bool.and_eq_true] at h
  exact h.1.2

lemma stepOK_canary {d : Deployer} {w : World} (h : stepOK d w 0 = true) :
    (canary w.canaryOracle).1 = true := by
  simp [stepOK, Bool.and_eq_true] at h
  exact h.2

lemma stepOK_intro_pos {d : Deployer} {w : World} {i : Nat} (hi : i ≠ 0)
    (h1 : Deployer.deploy_region d (w.deployEnv i) = true)
    (h2 : (Deployer.health_check (w.healthOracle i) 3).1 = true) :
    stepOK d w i = true := by
  simp [stepOK, Bool.and_eq_true, h1, h2, hi]

lemma stepOK_intro_zero {d : Deployer} {w : World}
    (h1 : Deployer.deploy_region d (w.deployEnv 0) = true)
    (h2 : (Deployer.health_check (w.healthOracle 0) 3).1 = true)
    (h3 : (canary w.canaryOracle).1 = true) :
    stepOK d w 0 = true := by
  simp [stepOK, Bool.and_eq_true, h1, h2, h3]

/-- Deploy (or version verification) failure at the current region: the
loop returns at once, rolling back the list as accumulated so far, the
current region not included. -/
lemma deployGo_cons_fail_deploy {d : Deployer} {w : World} {r : String}
    {rest : List String} {i : Nat} {dep : List String}
    {c : List (Nat × Bool × List HCEvent)}
    (hd : Deployer.deploy_region d (w.deployEnv i) = false) :
    deployGo d w (r :: rest) i dep c = ⟨false, dep, [dep], c⟩ := by
  simp [deployGo, hd]

/-- Health-check failure at the current region: the loop returns at once,
rolling back the accumulated list with the current region already appended. -/
lemma deployGo_cons_fail_health {d : Deployer} {w : World} {r : String}
    {rest : List String} {i : Nat} {dep : List String}
    {c : List (Nat × Bool × List HCEvent)}
    (hd : Deployer.deploy_region d (w.deployEnv i) = true)
    (hh : (Deployer.health_check (w.healthOracle i) 3).1 = false) :
    deployGo d w (r :: rest) i dep c
      = ⟨false, dep ++ [r], [dep ++ [r]], c⟩ := by
  simp [deployGo, hd, hh]

/-- Canary failure (possible only at index 0): the loop returns at once,
the first region already appended to the rolled-back list. -/
lemma deployGo_cons_fail_canary {d : Deployer} {w : World} {r : String}
    {rest : List String} {dep : List String}
    {c : List (Nat × Bool × List HCEvent)}
    (hd : Deployer.deploy_region d (w.deployEnv 0) = true)
    (hh : (Deployer.health_check (w.healthOracle 0) 3).1 = true)
    (hc : (canary w.canaryOracle).1 = false) :
    deployGo d w (r :: rest) 0 dep c
      = ⟨false, dep ++ [r], [dep ++ [r]], c ++ [(0, false, (canary w.canaryOracle).2)]⟩ := by
  simp [deployGo, hd, hh, hc]

/-- A fully successful first-region step advances the loop, appending the
region and recording the canary run. -/
lemma deployGo_cons_ok_zero {d : Deployer} {w : World} {r : String}
    {rest : List String} {dep : List String}
    {c : List (Nat × Bool × List HCEvent)}
    (h : stepOK d w 0 = true) :
    deployGo d w (r :: rest) 0 dep c
      = deployGo d w rest 1 (dep ++ [r]) (c ++ [(0, true, (canary w.canaryOracle).2)]) := by
  have h1 := stepOK_deploy h
  have h2 := stepOK_health h
  have h3 := stepOK_canary h
  simp [deployGo, h1, h2, h3]

/-- A fully successful later-region step advances the loop, appending the
region; no canary phase runs. -/
lemma deployGo_cons_ok_pos {d : Deployer} {w : World} {r : String}
    {rest : List String} {i : Nat} {dep : List String}
    {c : List (Nat × Bool × List HCEvent)}
    (hi : i ≠ 0) (h : stepOK d w i = true) :
    deployGo d w (r :: rest) i dep c
      = deployGo d w rest (i + 1) (dep ++ [r]) c := by
  have h1 := stepOK_deploy h
  have h2 := stepOK_health h
  simp [deployGo, h1, h2, hi]

lemma bool_eq_false {b : Bool} (h : ¬ b = true) : b = false := by
  cases b
  · rfl
  · exact absurd rfl h

/-- A fully successful step advances the loop for some canary record. -/
lemma deployGo_cons_ok {d : Deployer} {w : World} {r : String}
    {rest : List String} {i : Nat} {dep : List String}
    {c : List (Nat × Bool × List HCEvent)}
    (h : stepOK d w i = true) :
    ∃ c2, deployGo d w (r :: rest) i dep c
      = deployGo d w rest (i + 1) (dep ++ [r]) c2 := by
  by_cases hi : i = 0
  · subst hi
    exact ⟨_, deployGo_cons_ok_zero h⟩
  · exact ⟨c, deployGo_cons_ok_pos hi h⟩

/-- The loop succeeds exactly when every remaining region passes all of its
gates. -/
lemma deployGo_success_iff (d : Deployer) (w : World) :
    ∀ (l : List String) (i0 : Nat) (dep : List String)
      (c : List (Nat × Bool × List HCEvent)),
    ((deployGo d w l i0 dep c).success = true
      ↔ ∀ j, j < l.length → stepOK d w (i0 + j) = true) := by
  intro l
  induction l with
  | nil => intro i0 dep c; simp [deployGo]
  | cons r rest ih =>
    intro i0 dep c
    by_cases hstep : stepOK d w i0 = true
    · obtain ⟨c2, he⟩ := @deployGo_cons_ok d w r rest i0 dep c hstep
      rw [he, ih]
      constructor
      · intro h j hj
        cases j with
        | zero => simpa using hstep
        | succ t =>
          have ht := h t (by simpa using hj)
          rwa [show i0 + 1 + t = i0 + (t + 1) from by omega] at ht
      · intro h j hj
        have ht := h (j + 1) (by simp; omega)
        rwa [show i0 + (j + 1) = i0 + 1 + j from by omega] at ht
    · have hsf : (deployGo d w (r :: rest) i0 dep c).success = false := by
        by_cases hd : Deployer.deploy_region d (w.deployEnv i0) = true
        · by_cases hh : (Deployer.health_check (w.healthOracle i0) 3).1 = true
          · by_cases hi0 : i0 = 0
            · subst hi0
              have hc : (canary w.canaryOracle).1 = false := by
                refine bool_eq_false (fun hcv => hstep ?_)
                exact stepOK_intro_zero hd hh hcv
              rw [deployGo_cons_fail_canary hd hh hc]
            · exact absurd (stepOK_intro_pos hi0 hd hh) hstep
          · rw [deployGo_cons_fail_health hd (bool_eq_false hh)]
        · rw [deployGo_cons_fail_deploy (bool_eq_false hd)]
      rw [hsf]
      simp only [Bool.false_eq_true, false_iff]
      intro hall
      exact hstep (by simpa using hall 0 (by simp))

/-- The loop calls `rollback_all` exactly once on failure — with the
succeeded list as it stands at that moment — and never on success. -/
lemma deployGo_rollback_inv (d : Deployer) (w : World) :
    ∀ (l : List String) (i0 : Nat) (dep : List String)
      (c : List (Nat × Bool × List HCEvent)),
    (deployGo d w l i0 dep c).rollbackLists
      = if (deployGo d w l i0 dep c).success = true then []
        else [(deployGo d w l i0 dep c).deployed] := by
  intro l
  induction l with
  | nil => intro i0 dep c; simp [deployGo]
  | cons r rest ih =>
    intro i0 dep c
    by_cases hd : Deployer.deploy_region d (w.deployEnv i0) = true
    · by_cases hh : (Deployer.health_check (w.healthOracle i0) 3).1 = true
      · by_cases hi0 : i0 = 0
        · subst hi0
          by_cases hc : (canary w.canaryOracle).1 = true
          · rw [deployGo_cons_ok_zero (stepOK_intro_zero hd hh hc)]
            exact ih 1 (dep ++ [r]) _
          · rw [deployGo_cons_fail_canary hd hh (bool_eq_false hc)]
            simp
        · rw [deployGo_cons_ok_pos hi0 (stepOK_intro_pos hi0 hd hh)]
          exact ih (i0 + 1) (dep ++ [r]) c
      · rw [deployGo_cons_fail_health hd (bool_eq_false hh)]
        simp
    · rw [deployGo_cons_fail_deploy (bool_eq_false hd)]
      simp

/-- The accumulated succeeded list always extends `dep` by an initial
segment of the remaining regions, and every region so appended passed its
deploy and version verification. -/
lemma deployGo_deployed_inv (d : Deployer) (w : World) :
    ∀ (l : List String) (i0 : Nat) (dep : List String)
      (c : List (Nat × Bool × List HCEvent)),
    ∃ k, k ≤ l.length ∧ (deployGo d w l i0 dep c).deployed = dep ++ l.take k ∧
      ∀ j, j < k → Deployer.deploy_region d (w.deployEnv (i0 + j)) = true := by
  intro l
  induction l with
  | nil => intro i0 dep c; exact ⟨0, by simp [deployGo]⟩
  | cons r rest ih =>
    intro i0 dep c
    by_cases hd : Deployer.deploy_region d (w.deployEnv i0) = true
    · by_cases hh : (Deployer.health_check (w.healthOracle i0) 3).1 = true
      · by_cases hi0 : i0 = 0
        · subst hi0
          by_cases hc : (canary w.canaryOracle).1 = true
          · rw [deployGo_cons_ok_zero (stepOK_intro_zero hd hh hc)]
            obtain ⟨k, hk, hdep, hall⟩ := ih 1 (dep ++ [r]) _
            refine ⟨k + 1, by simpa using hk, by simpa [List.append_assoc] using hdep, ?_⟩
            intro j hj
            cases j with
            | zero => simpa using hd
            | succ t =>
              have := hall t (by omega)
              rwa [show 1 + t = 0 + (t + 1) from by omega] at this
          · rw [deployGo_cons_fail_canary hd hh (bool_eq_false hc)]
            refine ⟨1, by simp, by simp, ?_⟩
            intro j hj
            have hj0 : j = 0 := by omega
            subst hj0
            simpa using hd
        · rw [deployGo_cons_ok_pos hi0 (stepOK_intro_pos hi0 hd hh)]
          obtain ⟨k, hk, hdep, hall⟩ := ih (i0 + 1) (dep ++ [r]) c
          refine ⟨k + 1, by simpa using hk, by simpa [List.append_assoc] using hdep, ?_⟩
          intro j hj
          cases j with
          | zero => simpa using hd
          | succ t =>
            have := hall t (by omega)
            rwa [show i0 + 1 + t = i0 + (t + 1) from by omega] at this
      · rw [deployGo_cons_fail_health hd (bool_eq_false hh)]
        refine ⟨1, by simp, by simp, ?_⟩
        intro j hj
        have hj0 : j = 0 := by omega
        subst hj0
        simpa using hd
    · rw [deployGo_cons_fail_deploy (bool_eq_false hd)]
      exact ⟨0, by simp⟩

/-- When the first `i` regions pass all their gates and region `i` fails
its deploy (or version verification), the run fails and rolls back exactly
the accumulated list extended by the first `i` remaining regions — the
failed region not included. -/
lemma deployGo_fail_at_deploy (d : Deployer) (w : World) :
    ∀ (l : List String) (i i0 : Nat) (dep : List String)
      (c : List (Nat × Bool × List HCEvent)),
    i < l.length →
    (∀ j, j < i → stepOK d w (i0 + j) = true) →
    Deployer.deploy_region d (w.deployEnv (i0 + i)) = false →
    (deployGo d w l i0 dep c).success = false ∧
    (deployGo d w l i0 dep c).deployed = dep ++ l.take i ∧
    (deployGo d w l i0 dep c).rollbackLists = [dep ++ l.take i] := by
  intro l
  induction l with
  | nil => intro i i0 dep c hi _ _; simp at hi
  | cons r rest ih =>
    intro i i0 dep c hi hgood hfail
    cases i with
    | zero =>
      have hfail0 : Deployer.deploy_region d (w.deployEnv i0) = false := by
        simpa using hfail
      rw [deployGo_cons_fail_deploy hfail0]
      simp
    | succ t =>
      have hstep : stepOK d w i0 = true := by simpa using hgood 0 (by omega)
      obtain ⟨c2, he⟩ := @deployGo_cons_ok d w r rest i0 dep c hstep
      rw [he]
      obtain ⟨hs, hdep, hrb⟩ := ih t (i0 + 1) (dep ++ [r]) c2 (by simpa using hi)
        (fun j hj => by
          have := hgood (j + 1) (by omega)
          rwa [show i0 + (j + 1) = i0 + 1 + j from by omega] at this)
        (by rwa [show i0 + 1 + t = i0 + (t + 1) from by omega])
      refine ⟨hs, ?_, ?_⟩
      · simpa [List.take_succ_cons, List.append_assoc] using hdep
      · simpa [List.take_succ_cons, List.append_assoc] using hrb

/-- When the first `i` regions pass all their gates, region `i` deploys and
verifies but fails its health check, the run fails and rolls back the
accumulated list extended by the first `i + 1` remaining regions: the
health-check-failed region is included. -/
lemma deployGo_fail_at_health (d : Deployer) (w : World) :
    ∀ (l : List String) (i i0 : Nat) (dep : List String)
      (c : List (Nat × Bool × List HCEvent)),
    i < l.length →
    (∀ j, j < i → stepOK d w (i0 + j) = true) →
    Deployer.deploy_region d (w.deployEnv (i0 + i)) = true →
    (Deployer.health_check (w.healthOracle (i0 + i)) 3).1 = false →
    (deployGo d w l i0 dep c).success = false ∧
    (deployGo d w l i0 dep c).deployed = dep ++ l.take (i + 1) ∧
    (deployGo d w l i0 dep c).rollbackLists = [dep ++ l.take (i + 1)] := by
  intro l
  induction l with
  | nil => intro i i0 dep c hi _ _ _; simp at hi
  | cons r rest ih =>
    intro i i0 dep c hi hgood hd hh
    cases i with
    | zero =>
      have hd0 : Deployer.deploy_region d (w.deployEnv i0) = true := by simpa using hd
      have hh0 : (Deployer.health_check (w.healthOracle i0) 3).1 = false := by
        simpa using hh
      rw [deployGo_cons_fail_health hd0 hh0]
      simp
    | succ t =>
      have hstep : stepOK d w i0 = true := by simpa using hgood 0 (by omega)
      obtain ⟨c2, he⟩ := @deployGo_cons_ok d w r rest i0 dep c hstep
      rw [he]
      obtain ⟨hs, hdep, hrb⟩ := ih t (i0 + 1) (dep ++ [r]) c2 (by simpa using hi)
        (fun j hj => by
          have := hgood (j + 1) (by omega)
          rwa [show i0 + (j + 1) = i0 + 1 + j from by omega] at this)
        (by rwa [show i0 + 1 + t = i0 + (t + 1) from by omega])
        (by rwa [show i0 + 1 + t = i0 + (t + 1) from by omega])
      refine ⟨hs, ?_, ?_⟩
      · simpa [List.take_succ_cons, List.append_assoc] using hdep
      · simpa [List.take_succ_cons, List.append_assoc] using hrb

/-- Every canary record produced by the loop belongs to the accumulator or
concerns region index 0. -/
lemma deployGo_canary_runs (d : Deployer) (w : World) :
    ∀ (l : List String) (i0 : Nat) (dep : List String)
      (c : List (Nat × Bool × List HCEvent))
      (e : Nat × Bool × List HCEvent),
    e ∈ (deployGo d w l i0 dep c).canaryRuns → e ∈ c ∨ e.1 = 0 := by
  intro l
  induction l with
  | nil => intro i0 dep c e he; exact Or.inl (by simpa [deployGo] using he)
  | cons r rest ih =>
    intro i0 dep c e he
    by_cases hd : Deployer.deploy_region d (w.deployEnv i0) = true
    · by_cases hh : (Deployer.health_check (w.healthOracle i0) 3).1 = true
      · by_cases hi0 : i0 = 0
        · subst hi0
          by_cases hc : (canary w.canaryOracle).1 = true
          · rw [deployGo_cons_ok_zero (stepOK_intro_zero hd hh hc)] at he
            rcases ih 1 (dep ++ [r]) _ e he with hmem | h0
            · rcases List.mem_append.mp hmem with hmc | hone
              · exact Or.inl hmc
              · right
                have : e = (0, true, (canary w.canaryOracle).2) := by simpa using hone
                rw [this]
            · exact Or.inr h0
          · rw [deployGo_cons_fail_canary hd hh (bool_eq_false hc)] at he
            rcases List.mem_append.mp he with hmc | hone
            · exact Or.inl hmc
            · right
              have : e = (0, false, (canary w.canaryOracle).2) := by simpa using hone
              rw [this]
        · rw [deployGo_cons_ok_pos hi0 (stepOK_intro_pos hi0 hd hh)] at he
          exact ih (i0 + 1) (dep ++ [r]) c e he
      · rw [deployGo_cons_fail_health hd (bool_eq_false hh)] at he
        exact Or.inl he
    · rw [deployGo_cons_fail_deploy (bool_eq_false hd)] at he
      exact Or.inl he

lemma probeCount_append (s t : List HCEvent) :
    probeCount (s ++ t) = probeCount s + probeCount t := by
  simp [probeCount, List.countP_append]

lemma probeCount_flatten_replicate (n : Nat) (pat : List HCEvent) :
    probeCount ((List.replicate n pat).flatten) = n * probeCount pat := by
  induction n with
  | zero => simp [probeCount]
  | succ m ih =>
    rw [List.replicate_succ, List.flatten_cons, probeCount_append, ih, Nat.succ_mul]
    ring

/-! Claim theorems. -/

/-- C9: version detection never fails outward — on any error outcome of
the reference-region query (exception, or a well-formed body missing the
version field) `_detect_current_version` returns the fixed default "v1",
and on a well-formed response with a version field it returns that field's
value. -/
theorem C9_detect_total :
    Deployer.detect_current_version HttpResult.err = "v1"
    ∧ (∀ body : List (String × String), body.lookup "version" = none →
        Deployer.detect_current_version (HttpResult.ok body) = "v1")
    ∧ (∀ (body : List (String × String)) (v : String), body.lookup "version" = some v →
        Deployer.detect_current_version (HttpResult.ok body) = v) := by
  refine ⟨rfl, ?_, ?_⟩
  · intro body h
    simp [Deployer.detect_current_version, h]
  · intro body v h
    simp [Deployer.detect_current_version, h]

/-- Witness for C9 at concrete bodies: a body without a version field
yields "v1", and a body carrying version "v3" yields "v3". -/
theorem C9_witness :
    Deployer.detect_current_version (HttpResult.ok [("status", "running")]) = "v1"
    ∧ Deployer.detect_current_version
        (HttpResult.ok [("status", "running"), ("version", "v3")]) = "v3" :=
  ⟨C9_detect_total.2.1 [("status", "running")] (by decide),
   C9_detect_total.2.2 [("status", "running"), ("version", "v3")] "v3" (by decide)⟩

/-- C10: when the lifecycle start succeeds but the post-start version
read-back itself raises, `deploy_region` swallows the error and returns
true; with an actually observed version, it returns true exactly when that
version equals the target. -/
theorem C10_verify_swallow (d : Deployer) (env : RegionDeployEnv)
    (hstart : env.startOk = true) :
    (env.verify = VerifyResult.err → Deployer.deploy_region d env = true)
    ∧ (∀ actual, env.verify = VerifyResult.ok actual →
        (Deployer.deploy_region d env = true ↔ actual = d.version)) := by
  constructor
  · intro hv
    simp [Deployer.deploy_region, hstart, hv]
  · intro actual hv
    simp [Deployer.deploy_region, hstart, hv]

/-- Witness for C10: with the read-back raising, deploy of "v2" reports
success; with an observed "v9" it succeeds only if "v9" is the target. -/
theorem C10_witness :
    Deployer.deploy_region d2 ⟨true, VerifyResult.err⟩ = true
    ∧ (Deployer.deploy_region d2 ⟨true, VerifyResult.ok "v9"⟩ = true ↔ "v9" = d2.version) :=
  ⟨(C10_verify_swallow d2 ⟨true, VerifyResult.err⟩ rfl).1 rfl,
   (C10_verify_swallow d2 ⟨true, VerifyResult.ok "v9"⟩ rfl).2 "v9" rfl⟩

/-- C6 counterexample: against a probe whose every attempt reports
unhealthy, `health_check` with 3 retries makes exactly 3 attempts and
returns false — but the trace ends with a 2-second sleep AFTER the final
attempt, refuting the claim that no delay occurs after the final attempt
(the `time.sleep(2)` at line 76 runs after every failed attempt,
including the last). -/
theorem C6_counterexample :
    Deployer.health_check alwaysBad 3
      = (false, [HCEvent.probe, HCEvent.sleep 2, HCEvent.probe, HCEvent.sleep 2,
                 HCEvent.probe, HCEvent.sleep 2])
    ∧ probeCount (Deployer.health_check alwaysBad 3).2 = 3
    ∧ (Deployer.health_check alwaysBad 3).2.getLast? = some (HCEvent.sleep 2) := by
  refine ⟨by decide, by decide, by decide⟩

/-- C6 (amended): for every region probe whose every attempt fails
(transport error, non-200 status, or status field not "healthy"),
`health_check` performs exactly `retries` attempts and returns false, with
the fixed 2-second delay following every failed attempt — including the
final one — rather than only separating consecutive attempts. -/
theorem C6_all_fail_exhausts (oracle : Nat → ProbeOutcome) (retries : Nat)
    (h : ∀ k, k < retries → attemptSuccess (oracle k) = false) :
    Deployer.health_check oracle retries
      = (false, (List.replicate retries [HCEvent.probe, HCEvent.sleep 2]).flatten)
    ∧ probeCount (Deployer.health_check oracle retries).2 = retries := by
  have he := health_check_all_fail retries oracle h
  refine ⟨he, ?_⟩
  rw [he]
  show probeCount ((List.replicate retries [HCEvent.probe, HCEvent.sleep 2]).flatten) = retries
  rw [probeCount_flatten_replicate]
  have h1 : probeCount [HCEvent.probe, HCEvent.sleep 2] = 1 := rfl
  rw [h1, Nat.mul_one]

/-- Witness for C6 (amended) at the always-unhealthy probe with 3 retries. -/
theorem C6_witness :
    Deployer.health_check alwaysBad 3
      = (false, (List.replicate 3 [HCEvent.probe, HCEvent.sleep 2]).flatten)
    ∧ probeCount (Deployer.health_check alwaysBad 3).2 = 3 :=
  ⟨(C6_all_fail_exhausts alwaysBad 3 (by decide)).1,
   (C6_all_fail_exhausts alwaysBad 3 (by decide)).2⟩

/-- C7: if the attempt at 0-based index `s` (the `s + 1`-st attempt,
within the retry bound) is the first successful one, `health_check`
returns true immediately after exactly `s + 1` attempts: the trace ends at
the successful probe, no further attempt or sleep follows, and the result
does not depend on the remaining retries. -/
theorem C7_first_success_stops (oracle : Nat → ProbeOutcome) (retries s : Nat)
    (hs : s < retries)
    (hfail : ∀ k, k < s → attemptSuccess (oracle k) = false)
    (hsucc : attemptSuccess (oracle s) = true) :
    Deployer.health_check oracle retries
      = (true, (List.replicate s [HCEvent.probe, HCEvent.sleep 2]).flatten ++ [HCEvent.probe])
    ∧ probeCount (Deployer.health_check oracle retries).2 = s + 1 := by
  have he := health_check_first_success s oracle retries hs hfail hsucc
  refine ⟨he, ?_⟩
  rw [he]
  show probeCount ((List.replicate s [HCEvent.probe, HCEvent.sleep 2]).flatten
    ++ [HCEvent.probe]) = s + 1
  rw [probeCount_append, probeCount_flatten_replicate]
  have h1 : probeCount [HCEvent.probe, HCEvent.sleep 2] = 1 := rfl
  have h2 : probeCount [HCEvent.probe] = 1 := rfl
  rw [h1, h2, Nat.mul_one]

/-- Witness for C7: a probe failing its first attempt and succeeding on
the second, run with 3 retries, stops after exactly 2 attempts. -/
theorem C7_witness :
    Deployer.health_check secondOK 3
      = (true, [HCEvent.probe, HCEvent.sleep 2, HCEvent.probe])
    ∧ probeCount (Deployer.health_check secondOK 3).2 = 2 := by
  have h := C7_first_success_stops secondOK 3 1 (by decide) (by decide) (by decide)
  constructor
  · rw [h.1]
    decide
  · exact h.2

/-- C1 counterexample: in a world where region index 0 deploys and
verifies but fails its health check, rollback is invoked with
"region-us-west" in the succeeded list even though that region never
passed its health check — the list is appended to at line 172, before the
health check at line 176, refuting the claimed membership invariant. -/
theorem C1_counterexample :
    (Deployer.deploy d2 cexW1 Deployer.regions).rollbackLists = [["region-us-west"]]
    ∧ (Deployer.health_check (cexW1.healthOracle 0) 3).1 = false := by
  refine ⟨by decide, by decide⟩

/-- C1 (amended): at every point of the forward pass the succeeded list is
an initial segment of the configured region order in which every member
passed deploy and version verification — membership does NOT require a
passed health check: when rollback is invoked for a health-check failure
at index `i`, the list is exactly the first `i + 1` regions, including
region `i` whose health check failed. -/
theorem C1_succeeded_membership :
    (∀ (d : Deployer) (w : World) (rs : List String),
      ∃ k, k ≤ rs.length
        ∧ (Deployer.deploy d w rs).deployed = rs.take k
        ∧ ∀ j, j < k → Deployer.deploy_region d (w.deployEnv j) = true)
    ∧ (∀ (d : Deployer) (w : World) (rs : List String) (i : Nat),
        i < rs.length →
        (∀ j, j < i → stepOK d w j = true) →
        Deployer.deploy_region d (w.deployEnv i) = true →
        (Deployer.health_check (w.healthOracle i) 3).1 = false →
        (Deployer.deploy d w rs).deployed = rs.take (i + 1)
        ∧ (Deployer.deploy d w rs).rollbackLists = [rs.take (i + 1)]) := by
  constructor
  · intro d w rs
    obtain ⟨k, hk, hdep, hall⟩ := deployGo_deployed_inv d w rs 0 [] []
    refine ⟨k, hk, by simpa [Deployer.deploy] using hdep, ?_⟩
    intro j hj
    have := hall j hj
    simpa using this
  · intro d w rs i hi hgood hd hh
    obtain ⟨hs, hdep, hrb⟩ := deployGo_fail_at_health d w rs i 0 [] [] hi
      (fun j hj => by simpa using hgood j hj)
      (by simpa using hd)
      (by simpa using hh)
    exact ⟨by simpa [Deployer.deploy] using hdep, by simpa [Deployer.deploy] using hrb⟩

/-- Witness for C1 (amended): in the concrete world where region index 0
fails its health check, the succeeded list at rollback is exactly the
first region. -/
theorem C1_witness :
    (Deployer.deploy d2 cexW1 Deployer.regions).deployed = ["region-us-west"]
    ∧ (Deployer.deploy d2 cexW1 Deployer.regions).rollbackLists = [["region-us-west"]] := by
  have h := C1_succeeded_membership.2 d2 cexW1 Deployer.regions 0 (by decide)
    (fun j hj => absurd hj (Nat.not_lt_zero j)) (by decide) (by decide)
  constructor
  · rw [h.1]
    decide
  · rw [h.2]
    decide

/-- C2 counterexample: in a world where region index 1 deploys and
verifies but fails its health check, rollback processes both region 0 and
region 1 — region index 1 is included although the failure was its health
check, not a canary failure, refuting the claimed rollback scope. -/
theorem C2_counterexample :
    (Deployer.deploy d2 cexW2 Deployer.regions).rollbackLists
      = [["region-us-west", "region-us-east"]]
    ∧ (Deployer.health_check (cexW2.healthOracle 1) 3).1 = false := by
  refine ⟨by decide, by decide⟩

/-- C2 (amended): for every region list and failure at 0-based index `i`
after a fully successful prefix, rollback processes exactly the regions
with index < i when the failure is region i's deploy or version
verification, and exactly the regions with index ≤ i when the failure is
region i's health check — or, for i = 0, its canary phase — region i being
included in the latter two cases even though that gate failed. -/
theorem C2_rollback_scope (d : Deployer) (w : World) (rs : List String) (i : Nat)
    (hi : i < rs.length)
    (hgood : ∀ j, j < i → stepOK d w j = true) :
    (Deployer.deploy_region d (w.deployEnv i) = false →
      (Deployer.deploy d w rs).rollbackLists = [rs.take i])
    ∧ (Deployer.deploy_region d (w.deployEnv i) = true →
        (Deployer.health_check (w.healthOracle i) 3).1 = false →
        (Deployer.deploy d w rs).rollbackLists = [rs.take (i + 1)])
    ∧ (i = 0 →
        Deployer.deploy_region d (w.deployEnv 0) = true →
        (Deployer.health_check (w.healthOracle 0) 3).1 = true →
        (canary w.canaryOracle).1 = false →
        (Deployer.deploy d w rs).rollbackLists = [rs.take 1]) := by
  refine ⟨?_, ?_, ?_⟩
  · intro hd
    obtain ⟨_, _, hrb⟩ := deployGo_fail_at_deploy d w rs i 0 [] [] hi
      (fun j hj => by simpa using hgood j hj) (by simpa using hd)
    simpa [Deployer.deploy] using hrb
  · intro hd hh
    obtain ⟨_, _, hrb⟩ := deployGo_fail_at_health d w rs i 0 [] [] hi
      (fun j hj => by simpa using hgood j hj) (by simpa using hd) (by simpa using hh)
    simpa [Deployer.deploy] using hrb
  · intro hi0 hd hh hc
    subst hi0
    cases rs with
    | nil => simp at hi
    | cons r rest =>
      show (deployGo d w (r :: rest) 0 [] []).rollbackLists = [(r :: rest).take 1]
      rw [deployGo_cons_fail_canary hd hh hc]
      simp

/-- Witness for C2 (amended): with region index 1 failing its health check
after a good region 0, rollback covers exactly regions 0 and 1. -/
theorem C2_witness :
    (Deployer.deploy d2 cexW2 Deployer.regions).rollbackLists
      = [["region-us-west", "region-us-east"]] := by
  have h := (C2_rollback_scope d2 cexW2 Deployer.regions 1 (by decide)
    (by decide)).2.1 (by decide) (by decide)
  rw [h]
  decide

/-- C3: `deploy()` returns a plain boolean, true exactly when every
configured region passes all its gates (deploy with version verification,
health check, and canary for the first region); on failure
`rollback_all` has been invoked exactly once, with the succeeded list of
that moment, and never on success; `main` exits 0 exactly on a successful
run and 1 both on a failed run and on a missing version argument.  (The
embedding is a total function, so no exception escapes for any outcome of
the modelled deploy, health-check and rollback steps.) -/
theorem C3_run_boolean :
    (∀ (d : Deployer) (w : World) (rs : List String),
      ((Deployer.deploy d w rs).success = true ↔ ∀ j, j < rs.length → stepOK d w j = true))
    ∧ (∀ (d : Deployer) (w : World) (rs : List String),
        (Deployer.deploy d w rs).rollbackLists
          = if (Deployer.deploy d w rs).success = true then []
            else [(Deployer.deploy d w rs).deployed])
    ∧ (∀ (argv : List String) (w : World),
        Deployer.main argv w = 0 ∨ Deployer.main argv w = 1)
    ∧ (∀ (a0 v : String) (rest : List String) (w : World),
        (Deployer.main (a0 :: v :: rest) w = 0
          ↔ (Deployer.deploy
              ⟨v, rest.headD "0.0", Deployer.detect_current_version w.detectResult⟩
              w Deployer.regions).success = true))
    ∧ (∀ (argv : List String) (w : World), argv.length < 2 → Deployer.main argv w = 1) := by
  refine ⟨?_, ?_, ?_, ?_, ?_⟩
  · intro d w rs
    have h := deployGo_success_iff d w rs 0 [] []
    simpa [Deployer.deploy] using h
  · intro d w rs
    exact deployGo_rollback_inv d w rs 0 [] []
  · intro argv w
    match argv with
    | [] => exact Or.inr rfl
    | [a0] => exact Or.inr rfl
    | a0 :: v :: rest =>
      have hm : Deployer.main (a0 :: v :: rest) w
          = if (Deployer.deploy
              ⟨v, rest.headD "0.0", Deployer.detect_current_version w.detectResult⟩
              w Deployer.regions).success = true then 0 else 1 := rfl
      by_cases h : (Deployer.deploy
          ⟨v, rest.headD "0.0", Deployer.detect_current_version w.detectResult⟩
          w Deployer.regions).success = true
      · exact Or.inl (by rw [hm, if_pos h])
      · exact Or.inr (by rw [hm, if_neg h])
  · intro a0 v rest w
    have hm : Deployer.main (a0 :: v :: rest) w
        = if (Deployer.deploy
            ⟨v, rest.headD "0.0", Deployer.detect_current_version w.detectResult⟩
            w Deployer.regions).success = true then 0 else 1 := rfl
    rw [hm]
    by_cases h : (Deployer.deploy
        ⟨v, rest.headD "0.0", Deployer.detect_current_version w.detectResult⟩
        w Deployer.regions).success = true
    · simp [h]
    · simp [h]
  · intro argv w hlen
    match argv with
    | [] => rfl
    | [a0] => rfl
    | a0 :: v :: rest => simp at hlen; omega

/-- Witness for C3: with every external step healthy the run exits 0, and
a missing version argument exits 1. -/
theorem C3_witness :
    Deployer.main ["deploy-with-rollback.py", "v2"] goodW = 0
    ∧ Deployer.main ["deploy-with-rollback.py"] goodW = 1 := by
  constructor
  · exact (C3_run_boolean.2.2.2.1 "deploy-with-rollback.py" "v2" [] goodW).mpr (by decide)
  · exact C3_run_boolean.2.2.2.2 ["deploy-with-rollback.py"] goodW (by decide)

/-- C4: `rollback_all` issues exactly one start command per region of the
succeeded list, in append order, each configured with the prior version
detected at startup and the failure rate fixed to "0.0"; the command list
neither depends on the per-command outcomes (a command failure is not
escalated and iteration continues) nor on the session's own failure-rate
parameter. -/
theorem C4_rollback_commands (d : Deployer) (deployed : List String)
    (outcomes : Nat → Bool) :
    (Deployer.rollback_all d deployed outcomes).map RollbackCmd.region = deployed
    ∧ (∀ cmd, cmd ∈ Deployer.rollback_all d deployed outcomes →
        cmd.version = d.current_version ∧ cmd.failure_rate = "0.0")
    ∧ (∀ outcomes2 : Nat → Bool,
        Deployer.rollback_all d deployed outcomes
          = Deployer.rollback_all d deployed outcomes2)
    ∧ (∀ e : Deployer, e.current_version = d.current_version →
        Deployer.rollback_all e deployed outcomes
          = Deployer.rollback_all d deployed outcomes) := by
  refine ⟨?_, ?_, ?_, ?_⟩
  · simp [Deployer.rollback_all, List.map_map, Function.comp_def]
  · intro cmd hc
    rcases List.mem_map.mp hc with ⟨r, _, hcmd⟩
    rw [← hcmd]
    exact ⟨rfl, rfl⟩
  · intro outcomes2
    rfl
  · intro e he
    simp [Deployer.rollback_all, he]

/-- Witness for C4 at a concrete succeeded list: the single command
targets the listed region with the prior version "v1" and rate "0.0". -/
theorem C4_witness :
    (Deployer.rollback_all d2 ["region-us-west"] (fun _ => false)).map RollbackCmd.region
      = ["region-us-west"]
    ∧ RollbackCmd.version ⟨"region-us-west", "v1", "0.0"⟩ = "v1"
    ∧ RollbackCmd.failure_rate ⟨"region-us-west", "v1", "0.0"⟩ = "0.0" := by
  have h := C4_rollback_commands d2 ["region-us-west"] (fun _ => false)
  exact ⟨h.1, h.2.1 ⟨"region-us-west", "v1", "0.0"⟩ (by decide)⟩

/-- C5: a failing lifecycle start command or an observed version different
from the target makes the region's deploy fail with no retry, and after a
fully successful run of the earlier regions such a failure at index `i`
sends the orchestrator to rollback over exactly those earlier regions,
with the run returning false. -/
theorem C5_mismatch_rolls_back :
    (∀ (d : Deployer) (env : RegionDeployEnv),
      env.startOk = false → Deployer.deploy_region d env = false)
    ∧ (∀ (d : Deployer) (env : RegionDeployEnv) (actual : String),
        env.verify = VerifyResult.ok actual → actual ≠ d.version →
        Deployer.deploy_region d env = false)
    ∧ (∀ (d : Deployer) (w : World) (rs : List String) (i : Nat),
        i < rs.length →
        (∀ j, j < i → stepOK d w j = true) →
        Deployer.deploy_region d (w.deployEnv i) = false →
        (Deployer.deploy d w rs).success = false
        ∧ (Deployer.deploy d w rs).rollbackLists = [rs.take i]) := by
  refine ⟨?_, ?_, ?_⟩
  · intro d env h
    simp [Deployer.deploy_region, h]
  · intro d env actual hv hne
    simp [Deployer.deploy_region, hv, beq_iff_eq, hne]
  · intro d w rs i hi hgood hfail
    obtain ⟨hs, _, hrb⟩ := deployGo_fail_at_deploy d w rs i 0 [] [] hi
      (fun j hj => by simpa using hgood j hj) (by simpa using hfail)
    exact ⟨hs, by simpa [Deployer.deploy] using hrb⟩

/-- Witness for C5 (Scenario C): a version mismatch observed at region
index 2 makes the run fail and roll back exactly the two regions that had
succeeded before it. -/
theorem C5_witness :
    (Deployer.deploy d2 w5 Deployer.regions).success = false
    ∧ (Deployer.deploy d2 w5 Deployer.regions).rollbackLists
        = [["region-us-west", "region-us-east"]] := by
  have h := C5_mismatch_rolls_back.2.2 d2 w5 Deployer.regions 2 (by decide)
    (by decide) (by decide)
  refine ⟨h.1, ?_⟩
  rw [h.2]
  decide

/-- C8: canary monitoring runs only for the region at index 0 of the
configured order; when all checks pass it consists of exactly 5
single-attempt probes, each preceded by the fixed 2-second delay, and the
rollout proceeds to the remaining regions exactly when they pass their own
gates; when some check fails, the run fails and rollback covers a
succeeded list that still contains the first region. -/
theorem C8_canary_first_region_only :
    (∀ (d : Deployer) (w : World) (rs : List String) (e : Nat × Bool × List HCEvent),
      e ∈ (Deployer.deploy d w rs).canaryRuns → e.1 = 0)
    ∧ (∀ oracle : Nat → ProbeOutcome,
        (∀ c, c < 5 → attemptSuccess (oracle c) = true) →
        canary oracle = (true, (List.replicate 5 [HCEvent.sleep 2, HCEvent.probe]).flatten)
        ∧ probeCount (canary oracle).2 = 5)
    ∧ (∀ (d : Deployer) (w : World) (r : String) (rest : List String),
        Deployer.deploy_region d (w.deployEnv 0) = true →
        (Deployer.health_check (w.healthOracle 0) 3).1 = true →
        (canary w.canaryOracle).1 = false →
        (Deployer.deploy d w (r :: rest)).success = false
        ∧ (Deployer.deploy d w (r :: rest)).rollbackLists = [[r]]
        ∧ (Deployer.deploy d w (r :: rest)).canaryRuns
            = [(0, false, (canary w.canaryOracle).2)])
    ∧ (∀ (d : Deployer) (w : World) (r : String) (rest : List String),
        stepOK d w 0 = true →
        ((Deployer.deploy d w (r :: rest)).success = true
          ↔ ∀ j, j < rest.length → stepOK d w (1 + j) = true)) := by
  refine ⟨?_, ?_, ?_, ?_⟩
  · intro d w rs e he
    rcases deployGo_canary_runs d w rs 0 [] [] e (by simpa [Deployer.deploy] using he)
      with hmem | h0
    · simp at hmem
    · exact h0
  · intro oracle h
    have he : canary oracle
        = (true, (List.replicate 5 [HCEvent.sleep 2, HCEvent.probe]).flatten) :=
      canaryGo_all_pass 5 oracle h
    refine ⟨he, ?_⟩
    rw [he]
    show probeCount ((List.replicate 5 [HCEvent.sleep 2, HCEvent.probe]).flatten) = 5
    rw [probeCount_flatten_replicate]
    have h1 : probeCount [HCEvent.sleep 2, HCEvent.probe] = 1 := rfl
    rw [h1, Nat.mul_one]
  · intro d w r rest hd hh hc
    show (deployGo d w (r :: rest) 0 [] []).success = false
      ∧ (deployGo d w (r :: rest) 0 [] []).rollbackLists = [[r]]
      ∧ (deployGo d w (r :: rest) 0 [] []).canaryRuns
          = [(0, false, (canary w.canaryOracle).2)]
    rw [deployGo_cons_fail_canary hd hh hc]
    exact ⟨rfl, rfl, rfl⟩
  · intro d w r rest h0
    have hiff := deployGo_success_iff d w (r :: rest) 0 [] []
    show (deployGo d w (r :: rest) 0 [] []).success = true ↔ _
    rw [hiff]
    constructor
    · intro hall j hj
      have := hall (j + 1) (by simp; omega)
      rwa [show 0 + (j + 1) = 1 + j from by omega] at this
    · intro hall j hj
      cases j with
      | zero => simpa using h0
      | succ t =>
        have := hall t (by simpa using hj)
        rwa [show 1 + t = 0 + (t + 1) from by omega] at this

/-- Witness for C8: an all-pass canary oracle yields exactly the 5
delayed probes, and a canary failing its third check makes the run fail
with the first region in the rolled-back list. -/
theorem C8_witness :
    canary goodCanaryOracle
      = (true, (List.replicate 5 [HCEvent.sleep 2, HCEvent.probe]).flatten)
    ∧ (Deployer.deploy d2 cw8
        ("region-us-west" :: ["region-us-east", "region-eu-west", "region-ap-south"])).success
        = false
    ∧ (Deployer.deploy d2 cw8
        ("region-us-west" :: ["region-us-east", "region-eu-west", "region-ap-south"])).rollbackLists
        = [["region-us-west"]] := by
  have h1 := (C8_canary_first_region_only.2.1 goodCanaryOracle (by decide)).1
  have h2 := C8_canary_first_region_only.2.2.1 d2 cw8 "region-us-west"
    ["region-us-east", "region-eu-west", "region-ap-south"] (by decide) (by decide) (by decide)
  exact ⟨h1, h2.1, h2.2.1⟩
